import Mathlib

/-!
Shallow embedding of `src/bson/src/encoder/extended.rs`, the MongoDB
Extended-JSON (canonical form) decoder of the `mango` repository, together
with proofs about the decoders.

Modelling conventions:
* The host JavaScript values (`wasm_bindgen::JsValue`) are modelled by the
  inductive `JsValue`; property keys returned by `js_sys::Reflect::own_keys`
  are modelled by `JsKey` (a string key or a non-string key such as a JS
  Symbol).  `Reflect::get` and `Reflect::own_keys` throw on non-objects,
  modelled by `Except.error`; a missing property yields JS `undefined`.
* `crate::Result<T>` is `Except String T`: the decoder's errors are strings.
* Rust `f64` values produced by `JsValue::as_f64` are modelled by `Rat`.
  Every numeric input considered in the theorems below is exactly
  representable, and the arithmetic performed on it (`t / 1e3`, comparison
  with `0` and `2^32`) is exact in `f64` for those inputs, so the rational
  model agrees with IEEE-754 on them.
* Rust `as`-casts are modelled explicitly: `f64 as u32` saturates
  (`f64ToU32`), `i64 as u32` wraps modulo `2^32` (`i64ToU32`).
* Machine integers are `Int` with explicit range/wrap handling; `i64`
  arithmetic in `date` cannot overflow (`|ms % 1000 * 1_000_000| < 2^63`),
  so plain `Int` arithmetic is faithful there.
-/

namespace Mango

/-- A JavaScript property key as returned by `js_sys::Reflect::own_keys`:
either a string key or a non-string key (a JS `Symbol`). -/
inductive JsKey where
  | str : String → JsKey
  | sym : JsKey
deriving DecidableEq

/-- A JavaScript value (`wasm_bindgen::JsValue`) as far as the decoder
observes it: a string, a number (an `f64`, modelled by `Rat`), `undefined`,
an object with ordered own properties, or anything else. -/
inductive JsValue where
  | str : String → JsValue
  | num : Rat → JsValue
  | undef : JsValue
  | obj : List (JsKey × JsValue) → JsValue
  | other : JsValue

/-- `JsValue::as_string`: `some` exactly on JS strings. -/
def JsValue.as_string : JsValue → Option String
  | .str s => some s
  | _ => none

/-- `JsValue::as_f64`: `some` exactly on JS numbers. -/
def JsValue.as_f64 : JsValue → Option Rat
  | .num q => some q
  | _ => none

/-- `JsValue::as_string` applied to a property key. -/
def JsKey.as_string : JsKey → Option String
  | .str s => some s
  | .sym => none

/-- `js_sys::Reflect::own_keys(target)?.to_vec()`: the object's own property
keys in order; throws (an `Err` propagated by `?`) on a non-object. -/
def jsOwnKeys : JsValue → Except String (List JsKey)
  | .obj fields => .ok (fields.map Prod.fst)
  | _ => .error "Reflect.own_keys called on non-object"

/-- `js_sys::Reflect::get(target, key)?`: the first own property with the
given key, JS `undefined` when the property is missing; throws on a
non-object. -/
def jsGet : JsValue → JsKey → Except String JsValue
  | .obj fields, k =>
      match fields.find? (fun p => p.1 == k) with
      | some p => .ok p.2
      | none => .ok .undef
  | _, _ => .error "Reflect.get called on non-object"

/-- The BSON values (`bson::Bson`) the decoder constructs.  `DateTime`
carries the `(secs, nsecs)` pair handed to `chrono::Utc.timestamp`;
`Timestamp` carries `time` and `increment` (`u32` as `Nat`); `Binary`
carries the payload bytes and the one-byte subtype (bytes as `Nat < 256`). -/
inductive Bson where
  | ObjectId : List Nat → Bson
  | DateTime : Int → Nat → Bson
  | Double : Rat → Bson
  | Int32 : Int → Bson
  | Int64 : Int → Bson
  | MinKey : Bson
  | MaxKey : Bson
  | RegularExpression : String → String → Bson
  | Timestamp : Nat → Nat → Bson
  | Binary : List Nat → Nat → Bson
deriving DecidableEq

/-- Rust `f64 as u32` (used in `timestamp`): saturating conversion —
negative values go to `0`, values at or above `2^32` go to `2^32 - 1`,
anything else is truncated toward zero (equal to the floor on the
non-negative range). -/
def f64ToU32 (q : Rat) : Nat :=
  if q < 0 then 0 else min (Int.toNat ⌊q⌋) (2 ^ 32 - 1)

/-- Rust `i64 as u32` (used in `date`): wrapping conversion modulo `2^32`. -/
def i64ToU32 (n : Int) : Nat :=
  (n % 2 ^ 32).toNat

/-- Value of one hexadecimal digit (`hex` crate alphabet). -/
def hexDigitVal (c : Char) : Option Nat :=
  if '0' ≤ c ∧ c ≤ '9' then some (c.toNat - 48)
  else if 'a' ≤ c ∧ c ≤ 'f' then some (c.toNat - 87)
  else if 'A' ≤ c ∧ c ≤ 'F' then some (c.toNat - 55)
  else none

/-- `hex::decode` on the character list: consume the digits two at a time;
an odd number of digits or a non-hex character is an error. -/
def hexPairs : List Char → Except String (List Nat)
  | [] => .ok []
  | [_] => .error "Odd number of digits"
  | a :: b :: rest =>
      match hexDigitVal a, hexDigitVal b with
      | some x, some y => (hexPairs rest).map (fun t => (x * 16 + y) :: t)
      | _, _ => .error "Invalid character"

/-- `hex::decode`: a hex string to its byte sequence. -/
def hex.decode (s : String) : Except String (List Nat) :=
  hexPairs s.data

/-- Value of one standard-alphabet Base64 symbol (`base64` crate,
`STANDARD` config). -/
def b64Val (c : Char) : Option Nat :=
  if 'A' ≤ c ∧ c ≤ 'Z' then some (c.toNat - 65)
  else if 'a' ≤ c ∧ c ≤ 'z' then some (c.toNat - 71)
  else if '0' ≤ c ∧ c ≤ '9' then some (c.toNat + 4)
  else if c = '+' then some 62
  else if c = '/' then some 63
  else none

/-- Map every Base64 symbol to its 6-bit value; a symbol outside the
alphabet is an error. -/
def b64Vals : List Char → Except String (List Nat)
  | [] => .ok []
  | c :: rest =>
      match b64Val c with
      | some v => (b64Vals rest).map (fun t => v :: t)
      | none => .error "Invalid byte"

/-- Reassemble 6-bit values into bytes, four symbols to three bytes; a
final chunk of two or three symbols yields one or two bytes provided the
unused trailing bits are zero (the `STANDARD` config rejects non-zero
trailing bits); a final chunk of one symbol is an invalid length. -/
def b64Groups : List Nat → Except String (List Nat)
  | [] => .ok []
  | [_] => .error "Invalid length"
  | [a, b] =>
      if b % 16 = 0 then .ok [a * 4 + b / 16] else .error "Invalid last symbol"
  | [a, b, c] =>
      if c % 4 = 0 then .ok [a * 4 + b / 16, b % 16 * 16 + c / 4]
      else .error "Invalid last symbol"
  | a :: b :: c :: d :: rest =>
      (b64Groups rest).map
        (fun t => (a * 4 + b / 16) :: (b % 16 * 16 + c / 4) :: (c % 4 * 64 + d) :: t)

/-- `base64::decode` (standard alphabet, `=` padding): strip up to two
trailing `=` characters, reject `=` anywhere else and padded lengths not a
multiple of four, then decode symbols and regroup into bytes. -/
def base64.decode (s : String) : Except String (List Nat) :=
  let cs := s.data
  let pad := (cs.reverse.takeWhile (fun c => c == '=')).length
  let body := cs.take (cs.length - pad)
  if 2 < pad then .error "Invalid byte"
  else if body.any (fun c => c == '=') then .error "Invalid byte"
  else if pad ≠ 0 ∧ (body.length + pad) % 4 ≠ 0 then .error "Invalid length"
  else
    match b64Vals body with
    | .ok vals => b64Groups vals
    | .error e => .error e

/-- Rust `char::is_whitespace` (the Unicode `White_Space` property), used
by `str::trim`. -/
def rustIsWhitespace (c : Char) : Bool :=
  (9 ≤ c.toNat && c.toNat ≤ 13) || c.toNat == 32 || c.toNat == 133 ||
    c.toNat == 160 || c.toNat == 5760 || (8192 ≤ c.toNat && c.toNat ≤ 8202) ||
    c.toNat == 8232 || c.toNat == 8233 || c.toNat == 8239 ||
    c.toNat == 8287 || c.toNat == 12288

/-- `str::trim`: drop leading and trailing whitespace characters. -/
def rustTrim (l : List Char) : List Char :=
  ((l.dropWhile rustIsWhitespace).reverse.dropWhile rustIsWhitespace).reverse

/-- An ASCII letter (`A`–`Z` or `a`–`z`). -/
def isAsciiLetter (c : Char) : Bool :=
  (65 ≤ c.toNat && c.toNat ≤ 90) || (97 ≤ c.toNat && c.toNat ≤ 122)

/-- Value of one decimal digit. -/
def decDigit (c : Char) : Option Nat :=
  if '0' ≤ c ∧ c ≤ '9' then some (c.toNat - 48) else none

/-- Accumulate a decimal digit string into a natural number; a non-digit
character is a parse failure. -/
def decNatGo : List Char → Nat → Option Nat
  | [], acc => some acc
  | c :: rest, acc =>
      match decDigit c with
      | some d => decNatGo rest (acc * 10 + d)
      | none => none

/-- Parse a decimal integer string with an optional leading sign. -/
def strToInt (s : String) : Option Int :=
  match s.data with
  | [] => none
  | '-' :: rest =>
      if rest = [] then none else (decNatGo rest 0).map (fun n => -(n : Int))
  | '+' :: rest =>
      if rest = [] then none else (decNatGo rest 0).map (fun n => (n : Int))
  | l => (decNatGo l 0).map (fun n => (n : Int))

/-- Modelled from the spec: the numeric-primitive module (`super::number`)
is repository code that is not under `src/`.  Per §4.6, `long` parses a
string (the `$numberLong` canonical form) or a number as a signed 64-bit
integer; a malformed string or a value not representable in `i64` fails. -/
def number.long : JsValue → Except String Int
  | .str s =>
      match strToInt s with
      | some n =>
          if -(2 ^ 63) ≤ n ∧ n < 2 ^ 63 then .ok n
          else .error "invalid $numberLong value"
      | none => .error "invalid $numberLong value"
  | .num q =>
      if q.den = 1 ∧ -(2 ^ 63) ≤ q.num ∧ q.num < 2 ^ 63 then .ok q.num
      else .error "invalid $numberLong value"
  | _ => .error "invalid $numberLong value"

/-- Modelled from the spec: `super::number` is not under `src/`.  Per §4.6,
`int` requires a value coercible to a number, representable in the signed
32-bit range; out-of-range or non-numeric fails. -/
def number.int : JsValue → Except String Int
  | .str s =>
      match strToInt s with
      | some n =>
          if -(2 ^ 31) ≤ n ∧ n < 2 ^ 31 then .ok n
          else .error "invalid $numberInt value"
      | none => .error "invalid $numberInt value"
  | .num q =>
      if q.den = 1 ∧ -(2 ^ 31) ≤ q.num ∧ q.num < 2 ^ 31 then .ok q.num
      else .error "invalid $numberInt value"
  | _ => .error "invalid $numberInt value"

/-- Modelled from the spec: `super::number` is not under `src/`.  Per §4.6,
`double` requires a value coercible to a floating-point number; non-numeric
fails. -/
def number.double : JsValue → Except String Rat
  | .num q => .ok q
  | _ => .error "invalid $numberDouble value"

/-- `bson::oid::ObjectId::with_string`: a 24-character hexadecimal string
parsed into the 12 ObjectId bytes; wrong length or malformed hex fails. -/
def ObjectId.with_string (s : String) : Except String (List Nat) :=
  match hex.decode s with
  | .ok bytes =>
      if bytes.length = 12 then .ok bytes
      else .error "Invalid length"
  | .error e => .error e

/-- `fn oid`: `{"$oid": "<oid>"}` — the value must be a string, parsed as a
24-character big-endian hex ObjectId. -/
def oid (target : JsValue) : Except String Bson :=
  match target.as_string with
  | none => .error "failed to extract object id value"
  | some s =>
      match ObjectId.with_string s with
      | .ok bytes => .ok (.ObjectId bytes)
      | .error err => .error ("error in ObjectID value: " ++ err)

/-- `fn date`: `{"$date": {"$numberLong": "<millis>"}}` — fetch the
`$numberLong` field, parse it as an `i64` millisecond count `ms`, and build
`chrono::Utc.timestamp(ms / 1000, ((ms % 1000) * 1_000_000) as u32)`
(`/` and `%` are Rust's truncating `i64` division and remainder, the cast
wraps modulo `2^32`). -/
def date (target : JsValue) : Except String Bson := do
  let msv ← jsGet target (.str "$numberLong")
  let ms ← number.long msv
  let secs := Int.tdiv ms 1000
  let nsecs := i64ToU32 (Int.tmod ms 1000 * 1000000)
  pure (.DateTime secs nsecs)

/-- `fn timestamp`: `{"$timestamp": {"t": <t>, "i": <i>}}` — fetch `t` and
`i`, require both numeric (`as_f64`), then
`time = (t / 1e3) as u32`, `increment = i as u32` (saturating `f64`
casts). -/
def timestamp (target : JsValue) : Except String Bson := do
  let tv ← jsGet target (.str "t")
  let iv ← jsGet target (.str "i")
  match tv.as_f64 with
  | none => .error "invalid t in $timestamp"
  | some t =>
      match iv.as_f64 with
      | none => .error "invalid i in $timestamp"
      | some i => pure (.Timestamp (f64ToU32 (t / 1000)) (f64ToU32 i))

/-- `fn regex`: `{"$regularExpression": {"pattern": .., "options": ..}}` —
fetch `pattern` and `options`, require both strings, sort the option
characters ascending (`chars.sort_by(|a, b| a.cmp(b))`), re-join and trim
surrounding whitespace. -/
def regex (target : JsValue) : Except String Bson := do
  let pv ← jsGet target (.str "pattern")
  let ov ← jsGet target (.str "options")
  match pv.as_string with
  | none => .error "invalid pattern in $regularExpression"
  | some pattern =>
      match ov.as_string with
      | none => .error "invalid options in $regularExpression"
      | some options =>
          let chars := options.data
          let sorted := List.insertionSort (fun a b => a ≤ b) chars
          pure (.RegularExpression pattern (String.mk (rustTrim sorted)))

/-- `fn binary`: `{"$binary": {"base64": <payload>, "subType": <t>}}` —
fetch both fields, require both strings, Base64-decode the payload and
hex-decode the subtype, then require the decoded subtype to be exactly one
byte. -/
def binary (target : JsValue) : Except String Bson := do
  let bytesv ← jsGet target (.str "base64")
  let subtypev ← jsGet target (.str "subType")
  match bytesv.as_string with
  | none => .error "invalid base64 in $binary"
  | some bytesStr =>
      match subtypev.as_string with
      | none => .error "invalid subType in $binary"
      | some subtypeStr =>
          match base64.decode bytesStr with
          | .error err => .error ("invalid base64 in $binary: " ++ err)
          | .ok bytes =>
              match hex.decode subtypeStr with
              | .error err => .error ("invalid subType in $binary: " ++ err)
              | .ok subtype =>
                  match subtype with
                  | [b] => pure (.Binary bytes b)
                  | _ => .error "invalid subType in $binary"

/-- `pub fn inspect`: take the object's first own key (zero keys is "no
match", `Ok(None)`); fetch its value; the key itself must be a string;
dispatch on the ten reserved wrapper keys, any other key is "no match". -/
def inspect (target : JsValue) : Except String (Option Bson) := do
  let keys ← jsOwnKeys target
  match keys.head? with
  | some key => do
      let val ← jsGet target key
      match key.as_string with
      | none => .error "failed to extract object key"
      | some k =>
          match k with
          | "$oid" => do pure (some (← oid val))
          | "$date" => do pure (some (← date val))
          | "$numberDouble" => do pure (some (.Double (← number.double val)))
          | "$numberInt" => do pure (some (.Int32 (← number.int val)))
          | "$numberLong" => do pure (some (.Int64 (← number.long val)))
          | "$minKey" => pure (some .MinKey)
          | "$maxKey" => pure (some .MaxKey)
          | "$regularExpression" => do pure (some (← regex val))
          | "$timestamp" => do pure (some (← timestamp val))
          | "$binary" => do pure (some (← binary val))
          | _ => pure none
  | none => pure none

end Mango

namespace Mango

/-! ### Helper lemmas -/

/-- `Char` order is code-point order. -/
lemma char_le_iff (a b : Char) : a ≤ b ↔ a.toNat ≤ b.toNat := Iff.rfl

/-- Looking up the key of the first field finds it. -/
lemma jsGet_cons_self (k : JsKey) (v : JsValue) (rest : List (JsKey × JsValue)) :
    jsGet (.obj ((k, v) :: rest)) k = .ok v := by
  simp [jsGet, List.find?]

/-- `inspect` on an object whose first key is the string `k` dispatches on
`k` with the first field's value. -/
lemma inspect_cons_str (k : String) (v : JsValue) (rest : List (JsKey × JsValue)) :
    inspect (.obj ((.str k, v) :: rest)) =
      (match k with
       | "$oid" => do pure (some (← oid v))
       | "$date" => do pure (some (← date v))
       | "$numberDouble" => do pure (some (.Double (← number.double v)))
       | "$numberInt" => do pure (some (.Int32 (← number.int v)))
       | "$numberLong" => do pure (some (.Int64 (← number.long v)))
       | "$minKey" => pure (some .MinKey)
       | "$maxKey" => pure (some .MaxKey)
       | "$regularExpression" => do pure (some (← regex v))
       | "$timestamp" => do pure (some (← timestamp v))
       | "$binary" => do pure (some (← binary v))
       | _ => pure none) := by
  simp [inspect, jsOwnKeys, jsGet, List.find?, JsKey.as_string, Bind.bind, Except.bind,
    List.head?]

/-- `timestamp` on an inner object with numeric `t` and `i` fields. -/
lemma timestamp_num_num (t i : Rat) :
    timestamp (.obj [(.str "t", .num t), (.str "i", .num i)]) =
      .ok (.Timestamp (f64ToU32 (t / 1000)) (f64ToU32 i)) := rfl

/-- `inspect` routes a `$timestamp` wrapper to `timestamp`. -/
lemma inspect_timestamp (inner : JsValue) :
    inspect (.obj [(.str "$timestamp", inner)]) = (timestamp inner).map some := rfl

/-- `date` on an inner object with a `$numberLong` field that parses to `ms`. -/
lemma date_numberLong (v : JsValue) (ms : Int) (hv : number.long v = .ok ms) :
    date (.obj [(.str "$numberLong", v)]) =
      .ok (.DateTime (Int.tdiv ms 1000) (i64ToU32 (Int.tmod ms 1000 * 1000000))) := by
  simp [date, jsGet, List.find?, Bind.bind, Except.bind, hv, pure, Except.pure]

/-- `regex` on an inner object with string `pattern` and `options` fields:
the output options are the sorted option characters, trimmed. -/
lemma regex_fields (p o : String) :
    regex (.obj [(.str "pattern", .str p), (.str "options", .str o)]) =
      .ok (.RegularExpression p
        (String.mk (rustTrim (List.insertionSort (fun a b => a ≤ b) o.data)))) := rfl

/-- A whitespace character's code point is at most `0x20` or at least `0x85`. -/
lemma ws_range {c : Char} (h : rustIsWhitespace c = true) :
    c.toNat ≤ 32 ∨ 133 ≤ c.toNat := by
  simp [rustIsWhitespace] at h
  omega

/-- An ASCII letter's code point lies in `[0x41, 0x7A]`. -/
lemma letter_range {c : Char} (h : isAsciiLetter c = true) :
    65 ≤ c.toNat ∧ c.toNat ≤ 122 := by
  simp [isAsciiLetter] at h
  omega

/-- The head of `dropWhile p` falsifies `p`. -/
lemma dropWhile_head_false {p : Char → Bool} :
    ∀ {l a t}, List.dropWhile p l = a :: t → p a = false := by
  intro l
  induction l with
  | nil => intro a t h; simp [List.dropWhile] at h
  | cons x xs ih =>
      intro a t h
      rw [List.dropWhile_cons] at h
      by_cases hx : p x
      · rw [if_pos hx] at h; exact ih h
      · rw [if_neg hx] at h
        cases h
        simpa using hx

/-- In a sorted character list whose members are ASCII letters or
whitespace, trimming removes every whitespace character: sorting has moved
each whitespace character to one end (whitespace code points are all below
`A` or above `z`), where the trim deletes it. -/
lemma rustTrim_sorted_no_ws {l : List Char}
    (hs : List.Sorted (fun a b : Char => a ≤ b) l)
    (hall : ∀ c ∈ l, isAsciiLetter c = true ∨ rustIsWhitespace c = true) :
    ∀ c ∈ rustTrim l, rustIsWhitespace c = false := by
  intro c hc
  by_contra hws'
  rw [Bool.not_eq_false] at hws'
  rw [rustTrim, List.mem_reverse] at hc
  have hcd : c ∈ List.dropWhile rustIsWhitespace l :=
    (List.mem_reverse).mp (List.Sublist.mem hc (List.dropWhile_sublist _))
  have hcl : c ∈ l := List.Sublist.mem hcd (List.dropWhile_sublist _)
  obtain ⟨a, t, hdat⟩ : ∃ a t, List.dropWhile rustIsWhitespace l = a :: t := by
    rcases hd : List.dropWhile rustIsWhitespace l with _ | ⟨a, t⟩
    · rw [hd] at hcd; simp at hcd
    · exact ⟨a, t, rfl⟩
  have hahead : rustIsWhitespace a = false := dropWhile_head_false hdat
  have hc133 : 133 ≤ c.toNat := by
    rw [hdat] at hcd
    rcases List.mem_cons.mp hcd with rfl | hct
    · rw [hws'] at hahead; cases hahead
    · have hsd : List.Sorted (fun a b : Char => a ≤ b)
          (List.dropWhile rustIsWhitespace l) :=
        List.Pairwise.sublist (List.dropWhile_sublist _) hs
      rw [hdat] at hsd
      have hac : a ≤ c := List.rel_of_sorted_cons hsd c hct
      have hal : isAsciiLetter a = true := by
        have hain : a ∈ l := by
          have : a ∈ List.dropWhile rustIsWhitespace l := by
            rw [hdat]; exact List.mem_cons_self a t
          exact List.Sublist.mem this (List.dropWhile_sublist _)
        rcases hall a hain with h | h
        · exact h
        · rw [h] at hahead; cases hahead
      have h65 := (letter_range hal).1
      have hle := (char_le_iff a c).mp hac
      rcases ws_range hws' with h32 | h133
      · omega
      · exact h133
  have hce : c ∈ List.dropWhile rustIsWhitespace
      ((List.dropWhile rustIsWhitespace l).reverse) := hc
  obtain ⟨b, u, hebu⟩ : ∃ b u, List.dropWhile rustIsWhitespace
      ((List.dropWhile rustIsWhitespace l).reverse) = b :: u := by
    rcases hd : List.dropWhile rustIsWhitespace
        ((List.dropWhile rustIsWhitespace l).reverse) with _ | ⟨b, u⟩
    · rw [hd] at hce; simp at hce
    · exact ⟨b, u, rfl⟩
  have hbhead : rustIsWhitespace b = false := dropWhile_head_false hebu
  have hrev : List.Pairwise (fun a b : Char => b ≤ a)
      ((List.dropWhile rustIsWhitespace l).reverse) :=
    (List.pairwise_reverse).mpr (List.Pairwise.sublist (List.dropWhile_sublist _) hs)
  have hse : List.Pairwise (fun a b : Char => b ≤ a)
      (List.dropWhile rustIsWhitespace
        ((List.dropWhile rustIsWhitespace l).reverse)) :=
    List.Pairwise.sublist (List.dropWhile_sublist _) hrev
  rw [hebu] at hce hse
  rcases List.mem_cons.mp hce with rfl | hcu
  · rw [hws'] at hbhead; cases hbhead
  · have hcb : c ≤ b := List.rel_of_sorted_cons hse c hcu
    have hbl : b ∈ l := by
      have : b ∈ List.dropWhile rustIsWhitespace
          ((List.dropWhile rustIsWhitespace l).reverse) := by
        rw [hebu]; exact List.mem_cons_self b u
      exact List.Sublist.mem ((List.mem_reverse).mp
        (List.Sublist.mem this (List.dropWhile_sublist _))) (List.dropWhile_sublist _)
    have hbletter : isAsciiLetter b = true := by
      rcases hall b hbl with h | h
      · exact h
      · rw [h] at hbhead; cases hbhead
    have h122 := (letter_range hbletter).2
    have hle := (char_le_iff c b).mp hcb
    omega

end Mango

namespace Mango

/-! ### Claim theorems -/

/-- C1 counterexample: decoding `{"$timestamp": {"t": -5, "i": 2}}`, whose
`t` is numeric and negative, is NOT a decode failure — it succeeds with the
negative value clamped to `0`, refuting the claim that negative numeric
input is an error result. -/
theorem timestamp_negative_input_decodes_cex :
    inspect (.obj [(.str "$timestamp",
        .obj [(.str "t", .num (-5)), (.str "i", .num 2)])]) =
      .ok (some (.Timestamp 0 2)) := by
  rw [inspect_timestamp, timestamp_num_num]
  have h1 : f64ToU32 (-5 / 1000) = 0 := by
    rw [f64ToU32]
    norm_num
  have h2 : f64ToU32 2 = 2 := by
    rw [f64ToU32, if_neg (by norm_num : ¬ (2 : Rat) < 0),
      (by norm_num : ⌊(2 : Rat)⌋ = (2 : Int))]
    decide
  rw [h1, h2]
  rfl

/-- C1 (amended): decoding `{"$timestamp": {"t": t, "i": i}}` with ANY
numeric `t` and `i` — negative or outside the unsigned 32-bit range
included — succeeds rather than failing: the `f64 as u32` conversions
saturate.  A negative `t` clamps `time` to `0`; a `t` at or above
`2^32 * 1000` (so `t/1000` is at or above `2^32`) clamps `time` to
`2^32 - 1`; a negative `i` clamps `increment` to `0`; an `i` at or above
`2^32` clamps `increment` to `2^32 - 1`. -/
theorem timestamp_saturates_out_of_range (t i : Rat) :
    timestamp (.obj [(.str "t", .num t), (.str "i", .num i)]) =
      .ok (.Timestamp (f64ToU32 (t / 1000)) (f64ToU32 i)) ∧
    (t < 0 → f64ToU32 (t / 1000) = 0) ∧
    ((2 ^ 32 * 1000 : Rat) ≤ t → f64ToU32 (t / 1000) = 2 ^ 32 - 1) ∧
    (i < 0 → f64ToU32 i = 0) ∧
    ((2 ^ 32 : Rat) ≤ i → f64ToU32 i = 2 ^ 32 - 1) := by
  refine ⟨timestamp_num_num t i, ?_, ?_, ?_, ?_⟩
  · intro ht
    rw [f64ToU32, if_pos (div_neg_of_neg_of_pos ht (by norm_num))]
  · intro ht
    have hdiv : (2 ^ 32 : Rat) ≤ t / 1000 :=
      (le_div_iff₀ (by norm_num : (0 : Rat) < 1000)).mpr ht
    rw [f64ToU32]
    have hnn : ¬ t / 1000 < 0 := not_lt.mpr (le_trans (by norm_num) hdiv)
    rw [if_neg hnn]
    have hfl : (2 ^ 32 : Int) ≤ ⌊t / 1000⌋ :=
      Int.le_floor.mpr (by push_cast; exact hdiv)
    omega
  · intro hi
    rw [f64ToU32, if_pos hi]
  · intro hi
    rw [f64ToU32]
    have hnn : ¬ i < 0 := not_lt.mpr (le_trans (by norm_num) hi)
    rw [if_neg hnn]
    have hfl : (2 ^ 32 : Int) ≤ ⌊i⌋ := Int.le_floor.mpr (by push_cast; exact hi)
    omega

/-- C1 witness: at `t = -5`, `i = 2^32` the saturating behaviour is
concrete — the decoder returns `Timestamp{time: 0, increment: 2^32 - 1}`. -/
theorem timestamp_saturates_out_of_range_witness :
    timestamp (.obj [(.str "t", .num (-5)), (.str "i", .num (2 ^ 32))]) =
      .ok (.Timestamp 0 (2 ^ 32 - 1)) := by
  have h := timestamp_saturates_out_of_range (-5) (2 ^ 32)
  rw [h.1, h.2.1 (by norm_num), h.2.2.2.2 (by norm_num)]

/-- C2: for every non-negative signed 64-bit `ms`, decoding
`{"$date": {"$numberLong": ms}}` succeeds with
`secs = ms / 1000` (truncating division, `Int.tdiv`) and
`nsecs = (ms % 1000) * 1_000_000` (truncating remainder, `Int.tmod`; the
`u32` cast is the identity here), and `secs * 1000 + nsecs / 1_000_000`
recombines to `ms`. -/
theorem date_nonneg_ms_recombines (v : JsValue) (ms : Int)
    (hv : number.long v = .ok ms) (h0 : 0 ≤ ms) (hhi : ms < 2 ^ 63) :
    ∃ secs nsecs, date (.obj [(.str "$numberLong", v)]) = .ok (.DateTime secs nsecs) ∧
      secs = Int.tdiv ms 1000 ∧ (nsecs : Int) = Int.tmod ms 1000 * 1000000 ∧
      secs * 1000 + (nsecs : Int) / 1000000 = ms := by
  clear hhi
  refine ⟨_, _, date_numberLong v ms hv, rfl, ?_, ?_⟩
  · rw [i64ToU32, Int.tmod_eq_emod h0 (by norm_num)]
    have hr : 0 ≤ ms % 1000 ∧ ms % 1000 < 1000 :=
      ⟨Int.emod_nonneg ms (by norm_num), Int.emod_lt_of_pos ms (by norm_num)⟩
    omega
  · rw [i64ToU32, Int.tmod_eq_emod h0 (by norm_num), Int.tdiv_eq_ediv h0 (by norm_num)]
    have hr : 0 ≤ ms % 1000 ∧ ms % 1000 < 1000 :=
      ⟨Int.emod_nonneg ms (by norm_num), Int.emod_lt_of_pos ms (by norm_num)⟩
    omega

/-- C2 witness: `ms = 1500` (as the canonical string form) decodes and
recombines. -/
theorem date_nonneg_ms_recombines_witness :
    ∃ secs nsecs,
      date (.obj [(.str "$numberLong", .str "1500")]) = .ok (.DateTime secs nsecs) ∧
      secs = Int.tdiv 1500 1000 ∧ (nsecs : Int) = Int.tmod 1500 1000 * 1000000 ∧
      secs * 1000 + (nsecs : Int) / 1000000 = 1500 :=
  date_nonneg_ms_recombines (.str "1500") 1500 rfl (by decide) (by decide)

/-- C3: the decoded `$regularExpression` options are the input's characters
sorted ascending by code point and then trimmed of surrounding whitespace
(stated abstractly: some sorted permutation `l` of the input's characters
exists with output `rustTrim l`); and every permutation of the characters
`"gimsz"` decodes to the same sorted string `"gimsz"`. -/
theorem regex_options_sorted_and_permutation_invariant (p o : String) :
    (∃ l, List.Perm l o.data ∧ List.Sorted (fun a b : Char => a ≤ b) l ∧
       regex (.obj [(.str "pattern", .str p), (.str "options", .str o)]) =
         .ok (.RegularExpression p (String.mk (rustTrim l)))) ∧
    ∀ l : List Char, List.Perm l "gimsz".data →
      regex (.obj [(.str "pattern", .str p), (.str "options", .str (String.mk l))]) =
        .ok (.RegularExpression p "gimsz") := by
  constructor
  · exact ⟨_, List.perm_insertionSort _ _, List.sorted_insertionSort _ _,
      regex_fields p o⟩
  · intro l hl
    rw [regex_fields]
    have hdata : (String.mk l).data = l := rfl
    rw [hdata]
    have hsorted : List.insertionSort (fun a b : Char => a ≤ b) l = "gimsz".data := by
      apply List.eq_of_perm_of_sorted ((List.perm_insertionSort _ _).trans hl)
        (List.sorted_insertionSort _ _) (by decide)
    rw [hsorted]
    rfl

/-- C3 witness: the permutation `"zsmig"` of `"gimsz"` decodes to
`"gimsz"`. -/
theorem regex_options_sorted_and_permutation_invariant_witness :
    regex (.obj [(.str "pattern", .str "abc"),
        (.str "options", .str (String.mk "zsmig".data))]) =
      .ok (.RegularExpression "abc" "gimsz") :=
  (regex_options_sorted_and_permutation_invariant "abc" "").2 "zsmig".data (by decide)

/-- C4: whenever the `subType` hex string decodes to a byte sequence whose
length is not exactly `1`, decoding the `$binary` wrapper fails (with the
length-check error, or earlier if the Base64 payload is itself malformed);
the subtype is never truncated. -/
theorem binary_subtype_wrong_length_fails (b64s subs : String) (st : List Nat)
    (hdec : hex.decode subs = .ok st) (hlen : st.length ≠ 1) :
    ∃ msg, binary (.obj [(.str "base64", .str b64s), (.str "subType", .str subs)]) =
      .error msg := by
  have hred : binary (.obj [(.str "base64", .str b64s), (.str "subType", .str subs)]) =
      (match base64.decode b64s with
       | .error err => .error ("invalid base64 in $binary: " ++ err)
       | .ok bytes =>
           match hex.decode subs with
           | .error err => .error ("invalid subType in $binary: " ++ err)
           | .ok subtype =>
               match subtype with
               | [b] => pure (.Binary bytes b)
               | _ => .error "invalid subType in $binary") := rfl
  rw [hred]
  cases hb : base64.decode b64s with
  | error e => exact ⟨_, rfl⟩
  | ok bytes =>
      rw [hdec]
      match st, hlen with
      | [], _ => exact ⟨_, rfl⟩
      | a :: b :: t, _ => exact ⟨_, rfl⟩
      | [a], hlen => exact absurd rfl hlen

/-- C4 witness: a `subType` of `"0000"` (two decoded bytes) fails. -/
theorem binary_subtype_wrong_length_fails_witness :
    ∃ msg, binary (.obj [(.str "base64", .str "AQ=="), (.str "subType", .str "0000")]) =
      .error msg :=
  binary_subtype_wrong_length_fails "AQ==" "0000" [0, 0] rfl (by decide)

/-- C5: `inspect` returns "no match" (`Ok(None)`, not an error) on an
object with zero own keys, and on any object whose first key is a string
different from all ten reserved wrapper keys. -/
theorem inspect_no_match_on_empty_or_unreserved :
    inspect (.obj []) = .ok none ∧
    ∀ (k : String) (v : JsValue) (rest : List (JsKey × JsValue)),
      k ≠ "$oid" → k ≠ "$date" → k ≠ "$numberDouble" → k ≠ "$numberInt" →
      k ≠ "$numberLong" → k ≠ "$minKey" → k ≠ "$maxKey" →
      k ≠ "$regularExpression" → k ≠ "$timestamp" → k ≠ "$binary" →
      inspect (.obj ((.str k, v) :: rest)) = .ok none := by
  refine ⟨rfl, ?_⟩
  intro k v rest h1 h2 h3 h4 h5 h6 h7 h8 h9 h10
  rw [inspect_cons_str]
  split
  any_goals simp_all
  rfl

/-- C5 witness: an object whose single key is `"foo"` is "no match". -/
theorem inspect_no_match_on_empty_or_unreserved_witness :
    inspect (.obj [(.str "foo", .undef)]) = .ok none :=
  inspect_no_match_on_empty_or_unreserved.2 "foo" .undef [] (by decide) (by decide)
    (by decide) (by decide) (by decide) (by decide) (by decide) (by decide)
    (by decide) (by decide)

/-- C6: decoding `{"$timestamp": {"t": 1500, "i": 2}}` succeeds and yields
`Timestamp{time: 1, increment: 2}`: `time = (1500 / 1000) as u32 = 1`
(truncated) and `increment = 2`. -/
theorem timestamp_t1500_i2_decodes :
    inspect (.obj [(.str "$timestamp",
        .obj [(.str "t", .num 1500), (.str "i", .num 2)])]) =
      .ok (some (.Timestamp 1 2)) := by
  rw [inspect_timestamp, timestamp_num_num]
  have h1 : f64ToU32 (1500 / 1000) = 1 := by
    rw [f64ToU32]
    norm_num
  have h2 : f64ToU32 2 = 2 := by
    rw [f64ToU32, if_neg (by norm_num : ¬ (2 : Rat) < 0),
      (by norm_num : ⌊(2 : Rat)⌋ = (2 : Int))]
    decide
  rw [h1, h2]
  rfl

/-- C7: decoding `{"$binary": {"base64": "AQ==", "subType": "00"}}`
succeeds and yields `Binary{bytes: [0x01], subtype: 0x00}`. -/
theorem binary_AQ_subtype00_decodes :
    inspect (.obj [(.str "$binary",
        .obj [(.str "base64", .str "AQ=="), (.str "subType", .str "00")])]) =
      .ok (some (.Binary [1] 0)) := rfl

/-- C8: for every negative 64-bit `ms` whose truncating remainder mod 1000
is non-zero, the `(ms % 1000) * 1_000_000 as u32` computation wraps modulo
`2^32` and produces a nanosecond field greater than `999_999_999`. -/
theorem date_negative_ms_nsecs_wraps (v : JsValue) (ms : Int)
    (hv : number.long v = .ok ms) (hneg : ms < 0)
    (hrem : Int.tmod ms 1000 ≠ 0) :
    ∃ secs nsecs, date (.obj [(.str "$numberLong", v)]) = .ok (.DateTime secs nsecs) ∧
      nsecs = ((Int.tmod ms 1000 * 1000000) % 2 ^ 32).toNat ∧ 999999999 < nsecs := by
  refine ⟨_, _, date_numberLong v ms hv, rfl, ?_⟩
  cases ms with
  | ofNat n => simp only [Int.ofNat_eq_natCast] at hneg; omega
  | negSucc m =>
      have e : Int.tmod (Int.negSucc m) 1000 = -(((m + 1) % 1000 : Nat) : Int) := rfl
      rw [e] at hrem ⊢
      rw [i64ToU32]
      obtain ⟨r, hg⟩ : ∃ r, (m + 1) % 1000 = r := ⟨_, rfl⟩
      rw [hg] at hrem ⊢
      have hb : r < 1000 := hg ▸ Nat.mod_lt _ (by norm_num)
      have hnz : r ≠ 0 := by
        intro h
        exact hrem (by rw [h]; simp)
      have hr1 : 1 ≤ (r : Int) := by omega
      have hr9 : (r : Int) ≤ 999 := by omega
      have h : -(r : Int) * 1000000 % 2 ^ 32 = 2 ^ 32 - (r : Int) * 1000000 := by
        rw [neg_mul, Int.neg_emod]
        apply Int.emod_eq_of_lt
        · linarith
        · linarith
      rw [h]
      omega

/-- C8 witness: `ms = -500` yields the wrapped nanosecond value
`3_794_967_296 > 999_999_999`. -/
theorem date_negative_ms_nsecs_wraps_witness :
    ∃ secs nsecs,
      date (.obj [(.str "$numberLong", .str "-500")]) = .ok (.DateTime secs nsecs) ∧
      nsecs = ((Int.tmod (-500) 1000 * 1000000) % 2 ^ 32).toNat ∧ 999999999 < nsecs :=
  date_negative_ms_nsecs_wraps (.str "-500") (-500) rfl (by decide) (by decide)

/-- C9: when every character of the `$regularExpression` options is an
ASCII letter or a whitespace character, the decoded options contain no
whitespace at all: sorting moves whitespace to an end of the string and the
trim removes it. -/
theorem regex_options_whitespace_eliminated (p o : String)
    (h : ∀ c ∈ o.data, isAsciiLetter c = true ∨ rustIsWhitespace c = true) :
    ∃ opts, regex (.obj [(.str "pattern", .str p), (.str "options", .str o)]) =
        .ok (.RegularExpression p opts) ∧
      ∀ c ∈ opts.data, rustIsWhitespace c = false := by
  refine ⟨_, regex_fields p o, ?_⟩
  exact rustTrim_sorted_no_ws (List.sorted_insertionSort _ _)
    (fun c hc => h c (((List.perm_insertionSort _ _).mem_iff).mp hc))

/-- C9 witness: the options string `"g i m"` (letters and spaces) decodes
to a whitespace-free options string. -/
theorem regex_options_whitespace_eliminated_witness :
    ∃ opts, regex (.obj [(.str "pattern", .str "abc"), (.str "options", .str "g i m")]) =
        .ok (.RegularExpression "abc" opts) ∧
      ∀ c ∈ opts.data, rustIsWhitespace c = false :=
  regex_options_whitespace_eliminated "abc" "g i m" (by decide)

/-- C10: decoding `{"$binary": {"base64": "", "subType": "00"}}` succeeds
and yields `Binary` with an empty byte sequence and subtype `0x00`: only
the subtype's decoded length is checked, never the payload's. -/
theorem binary_empty_payload_decodes :
    inspect (.obj [(.str "$binary",
        .obj [(.str "base64", .str ""), (.str "subType", .str "00")])]) =
      .ok (some (.Binary [] 0)) := rfl

end Mango
